import Mathlib

/-!
Verification of the agentsPolyM core: the expiring-markets reporter
(`agents/application/expiring_markets_reporter.py`), the scheduler wrapper
(`agents/application/cron.py`), the mock autonomous trader of `demo_cli.py`,
and the one-best-trade cycle described by the design documentation.

Python datetimes are embedded as calendar records with an optional UTC offset,
strings as lists of characters, floats as rationals, and fallible operations
as `Option` or `Except`.
-/

namespace AgentsPolyM

/-- A Python `datetime` value as produced by `datetime.fromisoformat`:
calendar fields plus an optional UTC offset in minutes.  `offsetMinutes = none`
models a naive (timezone-unaware) datetime. -/
structure PyDateTime where
  year : Nat
  month : Nat
  day : Nat
  hour : Nat
  minute : Nat
  second : Nat
  microsecond : Nat
  offsetMinutes : Option Int
deriving DecidableEq, Repr

/-- Numeric value of an ASCII digit character. -/
def digitVal (c : Char) : Option Nat :=
  if c.isDigit then some (c.toNat - 48) else none

/-- Read exactly two digits. -/
def parse2 : List Char → Option (Nat × List Char)
  | a :: b :: rest => do
    let x ← digitVal a
    let y ← digitVal b
    pure (x * 10 + y, rest)
  | _ => none

/-- Read exactly four digits. -/
def parse4 : List Char → Option (Nat × List Char)
  | a :: b :: c :: d :: rest => do
    let x ← digitVal a
    let y ← digitVal b
    let z ← digitVal c
    let w ← digitVal d
    pure (((x * 10 + y) * 10 + z) * 10 + w, rest)
  | _ => none

/-- Consume one expected character. -/
def expectChar (c : Char) : List Char → Option (List Char)
  | x :: rest => if x = c then some rest else none
  | [] => none

/-- Take a maximal run of leading digits. -/
def takeDigits : List Char → (List Nat × List Char)
  | [] => ([], [])
  | c :: rest =>
    match digitVal c with
    | some d => let (ds, r) := takeDigits rest; (d :: ds, r)
    | none => ([], c :: rest)

/-- Microseconds denoted by a fractional-second digit run: one to six digits,
scaled to a microsecond count as `datetime.fromisoformat` does. -/
def microOfDigits (ds : List Nat) : Option Nat :=
  if ds.length = 0 ∨ 6 < ds.length then none
  else some ((ds.foldl (fun acc d => acc * 10 + d) 0) * 10 ^ (6 - ds.length))

/-- Gregorian leap-year test, as `datetime` validates calendar dates. -/
def isLeapYear (y : Nat) : Bool :=
  y % 4 = 0 && (y % 100 ≠ 0 || y % 400 = 0)

/-- Number of days in a month of a given year. -/
def daysInMonth (y m : Nat) : Nat :=
  if m = 2 then (if isLeapYear y then 29 else 28)
  else if m = 4 ∨ m = 6 ∨ m = 9 ∨ m = 11 then 30
  else 31

/-- Calendar-date validation performed by the `datetime` constructor. -/
def validDate (y m d : Nat) : Bool :=
  1 ≤ y && y ≤ 9999 && 1 ≤ m && m ≤ 12 && 1 ≤ d && d ≤ daysInMonth y m

/-- Time-of-day validation performed by the `datetime` constructor. -/
def validTime (h mi s : Nat) : Bool :=
  h ≤ 23 && mi ≤ 59 && s ≤ 59

/-- Parse a trailing UTC offset `±HH:MM` (which must reach the end of the
input) into minutes; an empty rest yields a naive result. -/
def parseOffsetHM (sign : Int) (cs : List Char) : Option (Option Int) := do
  let (oh, cs1) ← parse2 cs
  let cs2 ← expectChar ':' cs1
  let (om, cs3) ← parse2 cs2
  if cs3 = [] ∧ oh ≤ 23 ∧ om ≤ 59 then pure (some (sign * (oh * 60 + om))) else none

/-- Offset part of an ISO string: either nothing (naive) or `±HH:MM`. -/
def parseOffsetPart : List Char → Option (Option Int)
  | [] => some none
  | '+' :: rest => parseOffsetHM 1 rest
  | '-' :: rest => parseOffsetHM (-1) rest
  | _ => none

/-- Time-of-day part `HH:MM[:SS[.ffffff]]` of an ISO string, returning
hour, minute, second, microsecond and the unconsumed rest. -/
def parseTimePart (cs : List Char) : Option (Nat × Nat × Nat × Nat × List Char) := do
  let (h, cs1) ← parse2 cs
  let cs2 ← expectChar ':' cs1
  let (mi, cs3) ← parse2 cs2
  match cs3 with
  | ':' :: cs4 => do
    let (s, cs5) ← parse2 cs4
    match cs5 with
    | '.' :: cs6 =>
      let (ds, cs7) := takeDigits cs6
      let micro ← microOfDigits ds
      pure (h, mi, s, micro, cs7)
    | _ => pure (h, mi, s, 0, cs5)
  | _ => pure (h, mi, 0, 0, cs3)

/-- Model of `datetime.fromisoformat`: `YYYY-MM-DD`, optionally followed by a
separator and `HH:MM[:SS[.ffffff]]`, optionally ending in a UTC offset
`±HH:MM`.  Returns `none` where the library raises `ValueError`. -/
def fromisoformat (cs : List Char) : Option PyDateTime := do
  let (y, cs1) ← parse4 cs
  let cs2 ← expectChar '-' cs1
  let (mo, cs3) ← parse2 cs2
  let cs4 ← expectChar '-' cs3
  let (d, cs5) ← parse2 cs4
  if validDate y mo d then
    match cs5 with
    | [] => pure ⟨y, mo, d, 0, 0, 0, 0, none⟩
    | sep :: rest =>
      if sep = 'T' ∨ sep = ' ' then do
        let (h, mi, s, micro, cs6) ← parseTimePart rest
        if validTime h mi s then do
          let off ← parseOffsetPart cs6
          pure ⟨y, mo, d, h, mi, s, micro, off⟩
        else none
      else none
  else none

/-- Days from civil epoch 1970-01-01 for a Gregorian date (Hinnant
algorithm), used to give datetimes an absolute timeline position. -/
def daysFromCivil (y m d : Int) : Int :=
  let y1 : Int := if m ≤ 2 then y - 1 else y
  let era : Int := Int.fdiv y1 400
  let yoe : Int := y1 - era * 400
  let mp : Int := Int.emod (m + 9) 12
  let doy : Int := Int.fdiv (153 * mp + 2) 5 + d - 1
  let doe : Int := yoe * 365 + Int.fdiv yoe 4 - Int.fdiv yoe 100 + doy
  era * 146097 + doe - 719468

/-- Absolute position of a datetime in microseconds since the epoch; an
aware value is shifted by its UTC offset, exactly as `datetime` subtraction
compares instants. -/
def toEpochMicroseconds (t : PyDateTime) : Int :=
  ((daysFromCivil t.year t.month t.day) * 86400
      + (t.hour : Int) * 3600 + (t.minute : Int) * 60 + (t.second : Int)
      - (t.offsetMinutes.getD 0) * 60) * 1000000
    + (t.microsecond : Int)

/-- The `.days` field of the Python timedelta `a - b`: the floor of the
signed difference in whole days. -/
def timedeltaDays (a b : PyDateTime) : Int :=
  Int.fdiv (toEpochMicroseconds a - toEpochMicroseconds b) 86400000000

/-- The call `market.end.replace(chr(90), plus0000)` of the reporter: every
occurrence of `Z` is replaced by `+00:00` (Python `str.replace` replaces all
occurrences). -/
def pyReplaceZ : List Char → List Char
  | [] => []
  | c :: rest =>
    if c = 'Z' then '+' :: '0' :: '0' :: ':' :: '0' :: '0' :: pyReplaceZ rest
    else c :: pyReplaceZ rest

/-- End-date normalization of the reporter, lines 67 to 73: replace `Z` by
`+00:00`, parse with `fromisoformat`, and attach UTC to a naive result. -/
def normalizeEndL (cs : List Char) : Option PyDateTime :=
  match fromisoformat (pyReplaceZ cs) with
  | none => none
  | some d => some (if d.offsetMinutes = none then { d with offsetMinutes := some 0 } else d)

/-- String-level wrapper of `normalizeEndL`. -/
def normalizeEnd (s : String) : Option PyDateTime := normalizeEndL s.data

/-- A Python literal value as produced by `ast.literal_eval` (the standard
library evaluator is external; the model starts from its result). -/
inductive PyLit where
  | int : Int → PyLit
  | float : ℚ → PyLit
  | bool : Bool → PyLit
  | str : String → PyLit
  | nil : PyLit
  | list : List PyLit → PyLit
  | tuple : List PyLit → PyLit

/-- The `isinstance(prices, list)` test of `_parse_outcome_prices`. -/
def isListLit : PyLit → Bool
  | .list _ => true
  | _ => false

/-- The `isinstance(p, (int, float))` element test of `_parse_outcome_prices`;
a Python `bool` is an `int` subclass, so it passes. -/
def isNumericLit : PyLit → Bool
  | .int _ => true
  | .float _ => true
  | .bool _ => true
  | _ => false

/-- The `float(p)` conversion applied to accepted elements. -/
def litToFloat : PyLit → ℚ
  | .int n => (n : ℚ)
  | .float q => q
  | .bool b => if b then 1 else 0
  | _ => 0

/-- `ExpiringMarketsReporter._parse_outcome_prices`: the argument is the
result of `ast.literal_eval` on the outcome-price string (`Except.error`
models the `ValueError` / `SyntaxError` branch).  Only a literal list whose
elements are all numeric yields a non-default result; every other shape
falls through to the trailing `return []`. -/
def parseOutcomePrices : Except Unit PyLit → List ℚ
  | .error _ => []
  | .ok (.list ps) => if ps.all isNumericLit then ps.map litToFloat else []
  | .ok _ => []

/-- A news article, as returned by the news gateway. -/
structure Article where
  title : String
  url : String
  publishedAt : String
deriving DecidableEq, Repr

/-- `SimpleMarket` as consumed by the reporter.  `endDate` embeds the `end`
field (a Lean keyword); `outcomePrices` holds the `ast.literal_eval` result
for the outcome-price string of the market. -/
structure SimpleMarket where
  id : Int
  question : String
  endDate : String
  active : Bool
  outcomePrices : Except Unit PyLit

/-- `ExpiringMarketReportItem` assembled by the reporter. -/
structure ExpiringMarketReportItem where
  marketId : Int
  question : String
  expirationDate : String
  daysRemaining : Int
  odds : List ℚ
  newsArticles : List Article
  actionFiled : String

/-- Default `days_to_expiration_threshold` of `ExpiringMarketsReporter`. -/
def defaultDaysToExpirationThreshold : Int := 35

/-- Body of the per-market loop of `check_and_report_expiring_markets`:
skip inactive markets, normalize the end date (skipping the market when
parsing fails), and build a report item exactly when
`0 <= days_until_expiration <= threshold`.  `newsFor` stands for the news
gateway keyed by the market question. -/
def reportItemFor (newsFor : String → List Article) (now : PyDateTime) (threshold : Int)
    (m : SimpleMarket) : Option ExpiringMarketReportItem :=
  if !m.active then none
  else
    match normalizeEnd m.endDate with
    | none => none
    | some endInstant =>
      let days := timedeltaDays endInstant now
      if 0 ≤ days ∧ days ≤ threshold then
        some { marketId := m.id
               question := m.question
               expirationDate := m.endDate
               daysRemaining := days
               odds := parseOutcomePrices m.outcomePrices
               newsArticles := newsFor m.question
               actionFiled := "No specific action defined or taken by this script." }
      else none

/-- Outcome of one reporter cycle: the report list and the number of news
gateway calls the cycle issued after the market fetch. -/
structure ReporterCycleResult where
  reports : List ExpiringMarketReportItem
  newsGatewayCalls : Nat

/-- `check_and_report_expiring_markets`: the market fetch is passed in as an
`Except` (its `error` case models `get_all_markets` raising, handled by the
`except` branch that logs and returns).  On fetch failure or an empty market
list the cycle ends with no reports; otherwise the loop builds one optional
report item per market. -/
def check_and_report_expiring_markets (newsFor : String → List Article) (threshold : Int)
    (now : PyDateTime) (fetchResult : Except String (List SimpleMarket)) :
    ReporterCycleResult :=
  match fetchResult with
  | .error _ => ⟨[], 0⟩
  | .ok allMarkets =>
    if allMarkets.isEmpty then ⟨[], 0⟩
    else
      let reports := allMarkets.filterMap (reportItemFor newsFor now threshold)
      ⟨reports, reports.length⟩

/-- A demo market record of `demo_cli.py` (`DEMO_MARKETS` entries), with the
fields the mock trader reads. -/
structure DemoMarket where
  question : String
  category : String
  prices : List ℚ
  volume : ℚ
  spread : ℚ
deriving DecidableEq

/-- A demo news record of `demo_cli.py` (`DEMO_NEWS` entries), with the
fields the mock trader reads. -/
structure DemoNews where
  content : String
  sentiment : ℚ
deriving DecidableEq

/-- The selection key of the mock trader:
`lambda x: x[volume] / (1 + x[spread])`. -/
def volumeSpreadKey (m : DemoMarket) : ℚ := m.volume / (1 + m.spread)

/-- Python `max(xs, key=k)` over a nonempty sequence: fold keeping the first
maximal element (a later element replaces the current one only on a strictly
greater key). -/
def pymax (key : DemoMarket → ℚ) (best : DemoMarket) : List DemoMarket → DemoMarket
  | [] => best
  | x :: xs => pymax key (if key best < key x then x else best) xs

/-- Lower-cased character list of a string, as `str.lower()`. -/
def lowerData (s : String) : List Char := s.data.map Char.toLower

/-- Python substring test `needle in hay` on character lists. -/
def containsSub (needle : List Char) : List Char → Bool
  | [] => needle.isEmpty
  | c :: t => needle.isPrefixOf (c :: t) || containsSub needle t

/-- The list comprehension selecting the news whose content mentions the
category of the chosen market:
`[n for n in DEMO_NEWS if category.lower() in n[content].lower()]`. -/
def relevantNews (m : DemoMarket) (news : List DemoNews) : List DemoNews :=
  news.filter (fun n => containsSub (lowerData m.category) (lowerData n.content))

/-- `sum(sentiments) / len(relevant) if relevant_news else 0`. -/
def avgSentiment (ns : List DemoNews) : ℚ :=
  if ns.isEmpty then 0 else (ns.map DemoNews.sentiment).sum / (ns.length : ℚ)

/-- The mock AI prediction:
`max(0.05, min(0.95, prices[0] + avg_sentiment * 0.1 + noise))`, where
`noise` stands for the `random.uniform(-0.05, 0.05)` draw. -/
def aiPrediction (m : DemoMarket) (news : List DemoNews) (noise : ℚ) : ℚ :=
  max (5 / 100)
    (min (95 / 100)
      (m.prices.headD 0 + avgSentiment (relevantNews m news) * (1 / 10) + noise))

/-- The edge the mock trader prints for a market:
`abs(ai_prediction - prices[0])`. -/
def edgeOf (m : DemoMarket) (news : List DemoNews) (noise : ℚ) : ℚ :=
  |aiPrediction m news noise - m.prices.headD 0|

/-- Trade direction. -/
inductive TradeSide where
  | buy : TradeSide
  | sell : TradeSide
deriving DecidableEq

/-- Observable outcome of one `MockTrader.one_best_trade` run. -/
structure MockTradeOutcome where
  selected : DemoMarket
  edge : ℚ
  signal : Bool
  side : Option TradeSide
  positionSize : Option ℚ
deriving DecidableEq

/-- `MockTrader.one_best_trade` of `demo_cli.py`: choose the market with the
greatest `volume / (1 + spread)`, compute sentiment, prediction and edge for
that market only, and emit a trade signal exactly when `edge > 0.05`.
`none` embeds the `ValueError` Python `max` raises on an empty sequence. -/
def one_best_trade (markets : List DemoMarket) (news : List DemoNews) (noise : ℚ) :
    Option MockTradeOutcome :=
  match markets with
  | [] => none
  | m :: ms =>
    let best := pymax volumeSpreadKey m ms
    let prediction := aiPrediction best news noise
    let edge := |prediction - best.prices.headD 0|
    if edge > 5 / 100 then
      some { selected := best
             edge := edge
             signal := true
             side := some (if prediction > best.prices.headD 0 then .buy else .sell)
             positionSize := some (min (1 / 10) (edge * 2)) }
    else
      some { selected := best
             edge := edge
             signal := false
             side := none
             positionSize := none }

/-- Modelled from the spec: a tradeable candidate of the TradeDecisionEngine
one-best-trade cycle (design document section 4.3).  The module
`agents/application/trade.py` holding `Trader.one_best_trade` is absent from
the source tree; only its patcher `fix_and_optimize.py` and its caller
`cron.py` are present. -/
structure SpecCandidate where
  marketId : Int
  forecastProbability : ℚ
  currentPrice : ℚ
  confidence : ℚ
  volume : ℚ
deriving DecidableEq

/-- Modelled from the spec: `edge = abs(forecast_probability -
current_market_price)` of a candidate. -/
def specEdge (c : SpecCandidate) : ℚ := |c.forecastProbability - c.currentPrice|

/-- Modelled from the spec: candidate ordering — maximum edge, ties broken by
higher confidence, then by higher volume. -/
def specBetter (a b : SpecCandidate) : Bool :=
  if specEdge b < specEdge a then true
  else if specEdge a = specEdge b then
    if b.confidence < a.confidence then true
    else if a.confidence = b.confidence then decide (b.volume < a.volume)
    else false
  else false

/-- Modelled from the spec: select the single best candidate (first maximal
under the ordering), or nothing when no tradeable candidate remains. -/
def selectCandidate : List SpecCandidate → Option SpecCandidate
  | [] => none
  | c :: cs => some (cs.foldl (fun best x => if specBetter x best then x else best) c)

/-- Terminal outcome of one trade cycle. -/
inductive CycleOutcome where
  | noAction : CycleOutcome
  | executed : CycleOutcome
  | failedExecution : CycleOutcome
deriving DecidableEq

/-- Result of one trade cycle: its terminal outcome and how many order
submissions the cycle issued. -/
structure TradeCycleResult where
  outcome : CycleOutcome
  submissions : Nat
deriving DecidableEq

/-- Modelled from the spec: the trade recommendation built for the winning
candidate — BUY when the forecast exceeds the market price, size a bounded
function of edge and confidence capped at a tenth of the portfolio. -/
structure TradeRecommendation where
  marketId : Int
  side : TradeSide
  size : ℚ
deriving DecidableEq

/-- Modelled from the spec: recommendation construction for a candidate. -/
def recommendationFor (c : SpecCandidate) : TradeRecommendation :=
  { marketId := c.marketId
    side := if c.currentPrice < c.forecastProbability then .buy else .sell
    size := min (1 / 10) (specEdge c * c.confidence) }

/-- Modelled from the spec: the corrected one-best-trade cycle of
`agents/application/trade.py` (module absent from the source tree; its
recursion-removing patch is `fix_and_optimize.fix_trade_module`).  The cycle
selects at most one candidate, submits at most one order through the
execution gateway `execute`, and ends — on submission failure it logs and
returns instead of re-invoking itself. -/
def tradeCycle (candidates : List SpecCandidate) (minEdge : ℚ)
    (execute : TradeRecommendation → Bool) : TradeCycleResult :=
  match selectCandidate candidates with
  | none => ⟨.noAction, 0⟩
  | some c =>
    if specEdge c < minEdge then ⟨.noAction, 0⟩
    else if execute (recommendationFor c) then ⟨.executed, 1⟩
    else ⟨.failedExecution, 1⟩

/-- A job registered with the scheduling library: an identifier, a due
predicate over ticks, and the callable, whose `Except.error` result models
the callable raising at that tick. -/
structure ScheduledJob where
  jobId : Nat
  due : Nat → Bool
  run : Nat → Except String Unit

/-- The `run_pending` pass Scheduler.start calls each tick: invoke every due
job in registration order; a raising job makes the pass stop and the
exception propagate to the caller (neither the library pass nor
`Scheduler.start` of `cron.py` installs a handler around the invocation).
Returns the identifiers of the invoked jobs and the escaping exception, if
any. -/
def run_pending (tick : Nat) : List ScheduledJob → (List Nat × Option String)
  | [] => ([], none)
  | j :: js =>
    if j.due tick then
      match j.run tick with
      | .error e => ([j.jobId], some e)
      | .ok _ =>
        let (ran, err) := run_pending tick js
        (j.jobId :: ran, err)
    else run_pending tick js

/-- `Scheduler.start` of `cron.py`, observed for `fuel` ticks: the body is
`while True: run_pending(); sleep(1)` with no try block, so an exception
escaping `run_pending` ends the loop.  Returns the log of invoked job
identifiers and the exception that escaped the loop, if any. -/
def schedulerStart (jobs : List ScheduledJob) : Nat → Nat → (List Nat × Option String)
  | 0, _ => ([], none)
  | fuel + 1, tick =>
    match run_pending tick jobs with
    | (ran, some e) => (ran, some e)
    | (ran, none) =>
      let (laterRan, err) := schedulerStart jobs fuel (tick + 1)
      (ran ++ laterRan, err)

/-- A job whose callable is due at every tick and always raises. -/
def alwaysFailingJob : ScheduledJob := ⟨0, fun _ => true, fun _ => .error "boom"⟩

/-- A job whose callable is due at every tick and always returns normally. -/
def healthyJob : ScheduledJob := ⟨1, fun _ => true, fun _ => .ok ()⟩

/-- First demo market of the 0.08 and 0.03 edge scenario: edge 8/100 under
the shared sentiment, but the smaller volume-to-spread score. -/
def cxMarketA : DemoMarket := ⟨"qa", "", [1 / 2], 1000, 1 / 10⟩

/-- Second demo market of the scenario: edge 3/100 under the shared
sentiment (the prediction saturates at 95/100), but the larger
volume-to-spread score. -/
def cxMarketB : DemoMarket := ⟨"qb", "", [92 / 100], 100000, 1 / 100⟩

/-- One news item relevant to both markets (their empty category matches any
content), giving both the sentiment 4/5. -/
def cxNews : List DemoNews := [⟨"macro outlook", 4 / 5⟩]

/-- C9: if the fetch-all-markets gateway call fails, the reporter cycle ends
with an empty report list and issues zero further gateway calls; the
embedding is a total function, so nothing is raised to the Scheduler. -/
theorem fetch_failure_yields_empty_cycle (newsFor : String → List Article)
    (threshold : Int) (now : PyDateTime) (e : String) :
    check_and_report_expiring_markets newsFor threshold now (.error e) =
      ⟨[], 0⟩ := rfl

/-- C2: one trade cycle issues at most one order submission whatever the
execution gateway does, and with a failing gateway it terminates with either
a no-action or a failed-execution outcome — the cycle never re-invokes
itself, so retry can only come from the next scheduled tick. -/
theorem trade_cycle_no_self_retry (candidates : List SpecCandidate) (minEdge : ℚ)
    (execute : TradeRecommendation → Bool) :
    (tradeCycle candidates minEdge execute).submissions ≤ 1 ∧
    ((tradeCycle candidates minEdge (fun _ => false)).outcome = .noAction ∨
      (tradeCycle candidates minEdge (fun _ => false)).outcome = .failedExecution) ∧
    (tradeCycle candidates minEdge (fun _ => false)).submissions ≤ 1 := by
  cases h : selectCandidate candidates with
  | none => simp [tradeCycle, h]
  | some c =>
    by_cases he : specEdge c < minEdge
    · simp [tradeCycle, h, he]
    · by_cases hx : execute (recommendationFor c)
      · simp [tradeCycle, h, he, hx]
      · simp [tradeCycle, h, he, hx]

/-- C4: the claim that an exception raised by a job is caught and the tick
loop continues fails on the embedded `Scheduler.start`, which wraps
`run_pending` in no handler: with a first job that raises at its first due
tick and a second healthy job due at every tick, the loop ends at tick zero
with the escaped exception, having invoked only the raising job; the healthy
job is never evaluated on any of the five observed ticks. -/
theorem scheduler_loop_killed_by_raising_job :
    schedulerStart [alwaysFailingJob, healthyJob] 5 0 = ([0], some "boom") ∧
    healthyJob.due 0 = true ∧ healthyJob.due 4 = true ∧
    1 ∉ (schedulerStart [alwaysFailingJob, healthyJob] 5 0).1 := by
  refine ⟨rfl, rfl, rfl, ?_⟩
  decide

/-- C1: for a fixed aware now, an active market whose end timestamp
normalizes is included in the report exactly when
`0 <= days_remaining <= threshold` with the default threshold of 35, and the
recorded `days_remaining` is the computed whole-day difference (so values
such as -1 or 36 are excluded). -/
theorem market_included_iff_days_in_window (newsFor : String → List Article)
    (now : PyDateTime) (m : SimpleMarket) (endInstant : PyDateTime)
    (hact : m.active = true) (hend : normalizeEnd m.endDate = some endInstant) :
    ((reportItemFor newsFor now defaultDaysToExpirationThreshold m).isSome ↔
      0 ≤ timedeltaDays endInstant now ∧
        timedeltaDays endInstant now ≤ defaultDaysToExpirationThreshold) ∧
    ∀ item, reportItemFor newsFor now defaultDaysToExpirationThreshold m = some item →
      item.daysRemaining = timedeltaDays endInstant now := by
  unfold reportItemFor
  rw [hact, hend]
  by_cases h : 0 ≤ timedeltaDays endInstant now ∧
      timedeltaDays endInstant now ≤ defaultDaysToExpirationThreshold
  · constructor
    · simp [h]
    · intro item hitem
      simp only [Bool.not_true, Bool.false_eq_true, if_false, if_pos h,
        Option.some.injEq] at hitem
      rw [← hitem]
  · simp [h]

/-- C1 witness: the scenario market ending 2024-01-01T00:00:00Z, scanned with
now = 2023-12-20T00:00:00+00:00 and threshold 35, is included and has twelve
days remaining. -/
theorem market_included_iff_days_in_window_witness :
    (reportItemFor (fun _ => []) ⟨2023, 12, 20, 0, 0, 0, 0, some 0⟩
        defaultDaysToExpirationThreshold
        ⟨7, "q", "2024-01-01T00:00:00Z", true, .error ()⟩).isSome ∧
    timedeltaDays ⟨2024, 1, 1, 0, 0, 0, 0, some 0⟩ ⟨2023, 12, 20, 0, 0, 0, 0, some 0⟩
      = 12 := by
  constructor
  · exact ((market_included_iff_days_in_window (fun _ => [])
      ⟨2023, 12, 20, 0, 0, 0, 0, some 0⟩
      ⟨7, "q", "2024-01-01T00:00:00Z", true, .error ()⟩
      ⟨2024, 1, 1, 0, 0, 0, 0, some 0⟩ rfl (by decide)).1).mpr (by decide)
  · decide

/-- C10: `days_remaining` is the floor of the signed difference between the
normalized end and now in whole days; an active, parseable market whose end
is strictly before now — by any amount — has `days_remaining <= -1` and is
excluded, while an end within the first 24 hours from now gives
`days_remaining = 0` and inclusion, so the boundary is the exact instant
now. -/
theorem days_remaining_floor_boundary (newsFor : String → List Article)
    (now : PyDateTime) (m : SimpleMarket) (endInstant : PyDateTime)
    (hact : m.active = true) (hend : normalizeEnd m.endDate = some endInstant) :
    timedeltaDays endInstant now =
      Int.fdiv (toEpochMicroseconds endInstant - toEpochMicroseconds now)
        86400000000 ∧
    (toEpochMicroseconds endInstant < toEpochMicroseconds now →
      timedeltaDays endInstant now ≤ -1 ∧
      reportItemFor newsFor now defaultDaysToExpirationThreshold m = none) ∧
    (toEpochMicroseconds now ≤ toEpochMicroseconds endInstant →
      toEpochMicroseconds endInstant < toEpochMicroseconds now + 86400000000 →
      timedeltaDays endInstant now = 0 ∧
      (reportItemFor newsFor now defaultDaysToExpirationThreshold m).isSome) := by
  refine ⟨rfl, ?_, ?_⟩
  · intro hlt
    have hneg : timedeltaDays endInstant now < 0 :=
      Int.fdiv_neg' (by omega) (by norm_num)
    have hle : timedeltaDays endInstant now ≤ -1 := by omega
    refine ⟨hle, ?_⟩
    unfold reportItemFor
    rw [hact, hend]
    have hcond : ¬ (0 ≤ timedeltaDays endInstant now ∧
        timedeltaDays endInstant now ≤ defaultDaysToExpirationThreshold) := by omega
    simp [hcond]
  · intro hge hlt
    have hzero : timedeltaDays endInstant now = 0 := by
      unfold timedeltaDays
      rw [Int.fdiv_eq_ediv _ (by norm_num)]
      exact Int.ediv_eq_zero_of_lt (by omega) (by omega)
    refine ⟨hzero, ?_⟩
    unfold reportItemFor
    rw [hact, hend]
    have hcond : 0 ≤ timedeltaDays endInstant now ∧
        timedeltaDays endInstant now ≤ defaultDaysToExpirationThreshold := by
      rw [hzero]; exact ⟨le_refl 0, by norm_num [defaultDaysToExpirationThreshold]⟩
    simp [hcond]

/-- C10 witness: an end one second before now is excluded with
`days_remaining = -1`; an end twelve hours after now is included with
`days_remaining = 0`. -/
theorem days_remaining_floor_boundary_witness :
    (timedeltaDays ⟨2023, 12, 31, 23, 59, 59, 0, some 0⟩ ⟨2024, 1, 1, 0, 0, 0, 0, some 0⟩ ≤ -1 ∧
      reportItemFor (fun _ => []) ⟨2024, 1, 1, 0, 0, 0, 0, some 0⟩
        defaultDaysToExpirationThreshold
        ⟨8, "q1", "2023-12-31T23:59:59Z", true, .error ()⟩ = none) ∧
    (timedeltaDays ⟨2024, 1, 1, 12, 0, 0, 0, some 0⟩ ⟨2024, 1, 1, 0, 0, 0, 0, some 0⟩ = 0 ∧
      (reportItemFor (fun _ => []) ⟨2024, 1, 1, 0, 0, 0, 0, some 0⟩
        defaultDaysToExpirationThreshold
        ⟨9, "q2", "2024-01-01T12:00:00Z", true, .error ()⟩).isSome) := by
  constructor
  · exact (days_remaining_floor_boundary (fun _ => []) ⟨2024, 1, 1, 0, 0, 0, 0, some 0⟩
      ⟨8, "q1", "2023-12-31T23:59:59Z", true, .error ()⟩
      ⟨2023, 12, 31, 23, 59, 59, 0, some 0⟩ rfl (by decide)).2.1 (by decide)
  · exact (days_remaining_floor_boundary (fun _ => []) ⟨2024, 1, 1, 0, 0, 0, 0, some 0⟩
      ⟨9, "q2", "2024-01-01T12:00:00Z", true, .error ()⟩
      ⟨2024, 1, 1, 12, 0, 0, 0, some 0⟩ rfl (by decide)).2.2 (by decide) (by decide)

lemma pyReplaceZ_of_no_z (cs : List Char) (h : 'Z' ∉ cs) : pyReplaceZ cs = cs := by
  induction cs with
  | nil => rfl
  | cons c t ih =>
    rw [List.mem_cons, not_or] at h
    unfold pyReplaceZ
    rw [if_neg (fun hc => h.1 hc.symm), ih h.2]

lemma pyReplaceZ_append_z (t : List Char) (h : 'Z' ∉ t) :
    pyReplaceZ (t ++ ['Z']) =
      t ++ ('+' :: '0' :: '0' :: ':' :: '0' :: '0' :: []) := by
  induction t with
  | nil => rfl
  | cons c r ih =>
    rw [List.mem_cons, not_or] at h
    rw [List.cons_append]
    unfold pyReplaceZ
    rw [if_neg (fun hc => h.1 hc.symm), ih h.2, List.cons_append]

lemma normalizeEndL_aware (cs : List Char) (d : PyDateTime)
    (h : normalizeEndL cs = some d) : d.offsetMinutes.isSome := by
  unfold normalizeEndL at h
  cases hf : fromisoformat (pyReplaceZ cs) with
  | none => rw [hf] at h; exact absurd h (by simp)
  | some e =>
    rw [hf] at h
    simp only [Option.some.injEq] at h
    by_cases he : e.offsetMinutes = none
    · rw [if_pos he] at h
      rw [← h]
      rfl
    · rw [if_neg he] at h
      rw [← h]
      exact Option.isSome_iff_ne_none.mpr he

/-- C5: for an end string made of a Z-free body followed by the literal `Z`
suffix, the scan normalizes it to exactly the instant it derives from the
same body followed by `+00:00`, and any instant either form produces is
timezone-aware. -/
theorem z_suffix_normalizes_like_utc_offset (t : List Char) (hz : 'Z' ∉ t) :
    normalizeEndL (t ++ ['Z']) =
      normalizeEndL (t ++ ('+' :: '0' :: '0' :: ':' :: '0' :: '0' :: [])) ∧
    (∀ d, normalizeEndL (t ++ ['Z']) = some d → d.offsetMinutes.isSome) ∧
    (∀ d, normalizeEndL (t ++ ('+' :: '0' :: '0' :: ':' :: '0' :: '0' :: [])) = some d →
      d.offsetMinutes.isSome) := by
  refine ⟨?_, fun d hd => normalizeEndL_aware _ _ hd,
    fun d hd => normalizeEndL_aware _ _ hd⟩
  have h2 : 'Z' ∉ t ++ ('+' :: '0' :: '0' :: ':' :: '0' :: '0' :: []) := by
    rw [List.mem_append, not_or]
    exact ⟨hz, by decide⟩
  unfold normalizeEndL
  rw [pyReplaceZ_append_z t hz, pyReplaceZ_of_no_z _ h2]

/-- C5 witness: the concrete end 2024-01-01T00:00:00 with a `Z` suffix
normalizes exactly like the same stamp with `+00:00`, and the body is
Z-free. -/
theorem z_suffix_normalizes_like_utc_offset_witness :
    normalizeEndL ("2024-01-01T00:00:00".data ++ ['Z']) =
      normalizeEndL ("2024-01-01T00:00:00".data ++
        ('+' :: '0' :: '0' :: ':' :: '0' :: '0' :: [])) ∧
    'Z' ∉ "2024-01-01T00:00:00".data ∧
    normalizeEndL ("2024-01-01T00:00:00".data ++ ['Z']) =
      some ⟨2024, 1, 1, 0, 0, 0, 0, some 0⟩ :=
  ⟨(z_suffix_normalizes_like_utc_offset "2024-01-01T00:00:00".data (by decide)).1,
    by decide, by decide⟩

/-- C6: an end string whose parse yields a naive instant (no timezone
information) is normalized by attaching UTC: the scan uses the same calendar
fields with UTC offset zero. -/
theorem naive_end_assumed_utc (s : String) (d : PyDateTime)
    (hparse : fromisoformat (pyReplaceZ s.data) = some d)
    (hnaive : d.offsetMinutes = none) :
    normalizeEnd s = some { d with offsetMinutes := some 0 } ∧
    PyDateTime.offsetMinutes { d with offsetMinutes := some 0 } = some 0 := by
  constructor
  · unfold normalizeEnd normalizeEndL
    rw [hparse]
    simp [hnaive]
  · rfl

/-- C6 witness: the offset-free end 2024-06-01T12:30:00 parses naive and is
normalized to the same fields with UTC offset zero. -/
theorem naive_end_assumed_utc_witness :
    normalizeEnd "2024-06-01T12:30:00" = some ⟨2024, 6, 1, 12, 30, 0, 0, some 0⟩ :=
  (naive_end_assumed_utc "2024-06-01T12:30:00" ⟨2024, 6, 1, 12, 30, 0, 0, none⟩
    (by decide) rfl).1

/-- C8: a market whose end-date string fails to parse is skipped and the scan
continues: the cycle result over a list containing the malformed market is
exactly the cycle result with that market absent, so a single malformed
record never aborts the scan. -/
theorem unparseable_end_is_skipped (newsFor : String → List Article) (threshold : Int)
    (now : PyDateTime) (ms1 ms2 : List SimpleMarket) (m : SimpleMarket)
    (hbad : normalizeEnd m.endDate = none) :
    check_and_report_expiring_markets newsFor threshold now (.ok (ms1 ++ m :: ms2)) =
      check_and_report_expiring_markets newsFor threshold now (.ok (ms1 ++ ms2)) := by
  have hnone : reportItemFor newsFor now threshold m = none := by
    unfold reportItemFor
    cases h : m.active
    · simp
    · rw [hbad]
      simp
  by_cases hemp : ms1 ++ ms2 = []
  · rw [List.append_eq_nil] at hemp
    rw [hemp.1, hemp.2]
    simp [check_and_report_expiring_markets, hnone]
  · have e1 : (ms1 ++ m :: ms2).isEmpty = false := by
      cases ms1 <;> simp
    have e2 : (ms1 ++ ms2).isEmpty = false := by
      rcases ms1 with _ | ⟨a, t⟩ <;> rcases ms2 with _ | ⟨b, u⟩ <;> simp_all
    simp [check_and_report_expiring_markets, e1, e2, List.filterMap_append, hnone]

/-- C8 witness: a malformed end date among two well-formed markets leaves the
cycle result equal to the run without it. -/
theorem unparseable_end_is_skipped_witness :
    check_and_report_expiring_markets (fun _ => []) 35 ⟨2024, 1, 1, 0, 0, 0, 0, some 0⟩
        (.ok ([⟨1, "qa", "2024-01-05T00:00:00Z", true, .error ()⟩] ++
          ⟨2, "qb", "not-a-date", true, .error ()⟩ ::
            [⟨3, "qc", "2024-01-09T00:00:00Z", true, .error ()⟩])) =
      check_and_report_expiring_markets (fun _ => []) 35 ⟨2024, 1, 1, 0, 0, 0, 0, some 0⟩
        (.ok ([⟨1, "qa", "2024-01-05T00:00:00Z", true, .error ()⟩] ++
          [⟨3, "qc", "2024-01-09T00:00:00Z", true, .error ()⟩])) :=
  unparseable_end_is_skipped (fun _ => []) 35 ⟨2024, 1, 1, 0, 0, 0, 0, some 0⟩
    [⟨1, "qa", "2024-01-05T00:00:00Z", true, .error ()⟩]
    [⟨3, "qc", "2024-01-09T00:00:00Z", true, .error ()⟩]
    ⟨2, "qb", "not-a-date", true, .error ()⟩ (by decide)

/-- C7: a malformed outcome-price payload — a literal-eval failure, a
non-list literal, or a list holding a non-numeric element — yields an empty
odds list; the cycle builds each market report independently, so every other
qualifying market still gets its report, and the odds recorded in a report
are exactly the parsed payload of that market. -/
theorem malformed_prices_empty_and_contained :
    (∀ e, parseOutcomePrices (.error e) = []) ∧
    (∀ v : PyLit, isListLit v = false → parseOutcomePrices (.ok v) = []) ∧
    (∀ (ps : List PyLit) (x : PyLit), x ∈ ps → isNumericLit x = false →
      parseOutcomePrices (.ok (.list ps)) = []) ∧
    (∀ (newsFor : String → List Article) (threshold : Int) (now : PyDateTime)
        (ms1 ms2 : List SimpleMarket) (m : SimpleMarket),
      (check_and_report_expiring_markets newsFor threshold now
          (.ok (ms1 ++ m :: ms2))).reports =
        ms1.filterMap (reportItemFor newsFor now threshold) ++
          (reportItemFor newsFor now threshold m).toList ++
          ms2.filterMap (reportItemFor newsFor now threshold)) ∧
    (∀ (newsFor : String → List Article) (threshold : Int) (now : PyDateTime)
        (m : SimpleMarket) (item : ExpiringMarketReportItem),
      reportItemFor newsFor now threshold m = some item →
      item.odds = parseOutcomePrices m.outcomePrices) := by
  refine ⟨fun e => rfl, ?_, ?_, ?_, ?_⟩
  · intro v h
    cases v <;> simp_all [parseOutcomePrices, isListLit]
  · intro ps x hx hnum
    have hall : ps.all isNumericLit = false := by
      cases h : ps.all isNumericLit
      · rfl
      · exact absurd (List.all_eq_true.mp h x hx) (by rw [hnum]; decide)
    simp [parseOutcomePrices, hall]
  · intro newsFor threshold now ms1 ms2 m
    have e1 : (ms1 ++ m :: ms2).isEmpty = false := by
      cases ms1 <;> simp
    simp only [check_and_report_expiring_markets, e1, Bool.false_eq_true, if_false,
      List.filterMap_append]
    cases h : reportItemFor newsFor now threshold m <;>
      simp [List.filterMap_cons, h, List.append_assoc]
  · intro newsFor threshold now m item h
    unfold reportItemFor at h
    cases ha : m.active
    · rw [ha] at h
      exact absurd h (by simp)
    · rw [ha] at h
      cases he : normalizeEnd m.endDate with
      | none => rw [he] at h; exact absurd h (by simp)
      | some endInstant =>
        rw [he] at h
        by_cases hc : 0 ≤ timedeltaDays endInstant now ∧
            timedeltaDays endInstant now ≤ threshold
        · simp only [Bool.not_true, Bool.false_eq_true, if_false, if_pos hc,
            Option.some.injEq] at h
          rw [← h]
        · simp [hc] at h

/-- C7 witness: a non-list payload and a list with a non-numeric element both
yield empty odds; a qualifying market carrying a malformed payload is
reported with empty odds while its well-formed neighbour keeps its report. -/
theorem malformed_prices_empty_and_contained_witness :
    parseOutcomePrices (.ok (.str "oops")) = [] ∧
    parseOutcomePrices (.ok (.list [.float (1 / 2), .str "x"])) = [] ∧
    ∀ item, reportItemFor (fun _ => []) ⟨2024, 1, 1, 0, 0, 0, 0, some 0⟩ 35
        ⟨4, "qm", "2024-01-05T00:00:00Z", true, .ok (.str "oops")⟩ = some item →
      item.odds = [] := by
  refine ⟨?_, ?_, ?_⟩
  · exact malformed_prices_empty_and_contained.2.1 (.str "oops") rfl
  · exact malformed_prices_empty_and_contained.2.2.1 [.float (1 / 2), .str "x"]
      (.str "x") (List.mem_cons_of_mem _ (List.mem_cons_self _ _)) rfl
  · intro item h
    have := malformed_prices_empty_and_contained.2.2.2.2 (fun _ => [])
      35 ⟨2024, 1, 1, 0, 0, 0, 0, some 0⟩
      ⟨4, "qm", "2024-01-05T00:00:00Z", true, .ok (.str "oops")⟩ item h
    rw [this]
    exact malformed_prices_empty_and_contained.2.1 (.str "oops") rfl

lemma pymax_mem_or_eq (key : DemoMarket → ℚ) (xs : List DemoMarket) :
    ∀ b, pymax key b xs = b ∨ pymax key b xs ∈ xs := by
  induction xs with
  | nil => intro b; exact Or.inl rfl
  | cons x t ih =>
    intro b
    show pymax key (if key b < key x then x else b) t = b ∨
      pymax key (if key b < key x then x else b) t ∈ x :: t
    by_cases h : key b < key x
    · rw [if_pos h]
      rcases ih x with h1 | h1
      · exact Or.inr (by rw [h1]; exact List.mem_cons_self x t)
      · exact Or.inr (List.mem_cons_of_mem x h1)
    · rw [if_neg h]
      rcases ih b with h1 | h1
      · exact Or.inl h1
      · exact Or.inr (List.mem_cons_of_mem x h1)

lemma pymax_key_ge (key : DemoMarket → ℚ) (xs : List DemoMarket) :
    ∀ b, key b ≤ key (pymax key b xs) ∧
      ∀ x ∈ xs, key x ≤ key (pymax key b xs) := by
  induction xs with
  | nil => intro b; exact ⟨le_refl _, fun x hx => absurd hx (List.not_mem_nil x)⟩
  | cons x t ih =>
    intro b
    show key b ≤ key (pymax key (if key b < key x then x else b) t) ∧
      ∀ y ∈ x :: t, key y ≤ key (pymax key (if key b < key x then x else b) t)
    by_cases h : key b < key x
    · rw [if_pos h]
      refine ⟨le_trans (le_of_lt h) (ih x).1, ?_⟩
      intro y hy
      rcases List.mem_cons.mp hy with rfl | hyt
      · exact (ih y).1
      · exact (ih x).2 y hyt
    · rw [if_neg h]
      refine ⟨(ih b).1, ?_⟩
      intro y hy
      rcases List.mem_cons.mp hy with rfl | hyt
      · exact le_trans (le_of_not_lt h) (ih b).1
      · exact (ih b).2 y hyt

lemma cx_relA : relevantNews cxMarketA cxNews = cxNews := rfl

lemma cx_relB : relevantNews cxMarketB cxNews = cxNews := rfl

lemma cx_avg : avgSentiment cxNews = 4 / 5 := by
  norm_num [avgSentiment, cxNews]

lemma cx_key : volumeSpreadKey cxMarketA < volumeSpreadKey cxMarketB := by
  norm_num [volumeSpreadKey, cxMarketA, cxMarketB]

lemma cx_best : pymax volumeSpreadKey cxMarketA [cxMarketB] = cxMarketB := by
  show pymax volumeSpreadKey
    (if volumeSpreadKey cxMarketA < volumeSpreadKey cxMarketB then cxMarketB else cxMarketA)
    [] = cxMarketB
  rw [if_pos cx_key]
  rfl

lemma cx_predA : aiPrediction cxMarketA cxNews 0 = 29 / 50 := by
  unfold aiPrediction
  rw [cx_relA, cx_avg]
  show max (5 / 100) (min (95 / 100) ((1 / 2 : ℚ) + 4 / 5 * (1 / 10) + 0)) = 29 / 50
  rw [show ((1 / 2 : ℚ) + 4 / 5 * (1 / 10) + 0) = 29 / 50 by norm_num]
  rw [min_eq_right (by norm_num), max_eq_right (by norm_num)]

lemma cx_predB : aiPrediction cxMarketB cxNews 0 = 95 / 100 := by
  unfold aiPrediction
  rw [cx_relB, cx_avg]
  show max (5 / 100) (min (95 / 100) ((92 / 100 : ℚ) + 4 / 5 * (1 / 10) + 0)) = 95 / 100
  rw [show ((92 / 100 : ℚ) + 4 / 5 * (1 / 10) + 0) = 1 by norm_num]
  rw [min_eq_left (by norm_num), max_eq_right (by norm_num)]

lemma cx_edgeA : edgeOf cxMarketA cxNews 0 = 8 / 100 := by
  unfold edgeOf
  rw [cx_predA]
  show |(29 / 50 : ℚ) - 1 / 2| = 8 / 100
  rw [show ((29 / 50 : ℚ) - 1 / 2) = 8 / 100 by norm_num]
  exact abs_of_nonneg (by norm_num)

lemma cx_edgeB_raw :
    |aiPrediction cxMarketB cxNews 0 - cxMarketB.prices.headD 0| = 3 / 100 := by
  rw [cx_predB]
  show |(95 / 100 : ℚ) - 92 / 100| = 3 / 100
  rw [show ((95 / 100 : ℚ) - 92 / 100) = 3 / 100 by norm_num]
  exact abs_of_nonneg (by norm_num)

lemma cx_edgeB : edgeOf cxMarketB cxNews 0 = 3 / 100 := cx_edgeB_raw

lemma cx_eval : one_best_trade [cxMarketA, cxMarketB] cxNews 0 =
    some ⟨cxMarketB, 3 / 100, false, none, none⟩ := by
  simp only [one_best_trade]
  rw [cx_best, cx_edgeB_raw]
  rw [if_neg (by norm_num)]

/-- C3 counterexample: the mock trade-decision engine does not select the
candidate of maximum edge.  With two candidates whose edges are 8/100 and
3/100 under a shared sentiment, and the 3/100 candidate carrying the larger
volume-to-spread score, the engine selects the 3/100 candidate, so the
selection is not edge-maximal. -/
theorem mock_trader_max_edge_selection_refuted :
    ¬ (∀ (markets : List DemoMarket) (news : List DemoNews) (noise : ℚ)
        (r : MockTradeOutcome), one_best_trade markets news noise = some r →
        ∀ m ∈ markets, edgeOf m news noise ≤ edgeOf r.selected news noise) := by
  intro hclaim
  have h := hclaim [cxMarketA, cxMarketB] cxNews 0
    ⟨cxMarketB, 3 / 100, false, none, none⟩ cx_eval
    cxMarketA (List.mem_cons_self _ _)
  rw [cx_edgeA,
    show (MockTradeOutcome.selected ⟨cxMarketB, 3 / 100, false, none, none⟩) = cxMarketB
      from rfl,
    cx_edgeB] at h
  norm_num at h

/-- C3 (amended): the mock engine selects the single candidate maximizing
`volume / (1 + spread)` (the first maximal element under Python max, hence
deterministic in the candidate list); the forecast and edge are computed
only for that selected candidate, whose recorded edge is its edge value, and
a trade signal is emitted exactly when that edge exceeds 5/100 — so in the
scenario with edges 8/100 and 3/100 the engine can select the 3/100
candidate when it carries the larger volume-to-spread score. -/
theorem mock_trader_selects_max_volume_spread_key (markets : List DemoMarket)
    (news : List DemoNews) (noise : ℚ) (r : MockTradeOutcome)
    (h : one_best_trade markets news noise = some r) :
    r.selected ∈ markets ∧
    (∀ m ∈ markets, volumeSpreadKey m ≤ volumeSpreadKey r.selected) ∧
    r.edge = edgeOf r.selected news noise ∧
    (r.signal = true ↔ 5 / 100 < edgeOf r.selected news noise) := by
  cases markets with
  | nil => exact absurd h (by simp [one_best_trade])
  | cons m ms =>
    have hmem : pymax volumeSpreadKey m ms ∈ m :: ms := by
      rcases pymax_mem_or_eq volumeSpreadKey ms m with h1 | h1
      · rw [h1]; exact List.mem_cons_self m ms
      · exact List.mem_cons_of_mem m h1
    have hge : ∀ x ∈ m :: ms,
        volumeSpreadKey x ≤ volumeSpreadKey (pymax volumeSpreadKey m ms) := by
      intro x hx
      rcases List.mem_cons.mp hx with rfl | hxt
      · exact (pymax_key_ge volumeSpreadKey ms x).1
      · exact (pymax_key_ge volumeSpreadKey ms m).2 x hxt
    simp only [one_best_trade] at h
    by_cases hc : |aiPrediction (pymax volumeSpreadKey m ms) news noise -
        (pymax volumeSpreadKey m ms).prices.headD 0| > 5 / 100
    · rw [if_pos hc, Option.some.injEq] at h
      rw [← h]
      exact ⟨hmem, hge, rfl, iff_of_true rfl hc⟩
    · rw [if_neg hc, Option.some.injEq] at h
      rw [← h]
      refine ⟨hmem, hge, rfl, iff_of_false (by simp) hc⟩

/-- C3 witness for the amended claim: on the concrete scenario candidates
the selected market is the second one, every candidate has a
volume-to-spread score at most the score of the selected one, and no trade
signal is emitted because the selected edge 3/100 does not exceed 5/100. -/
theorem mock_trader_selects_max_volume_spread_key_witness :
    cxMarketB ∈ [cxMarketA, cxMarketB] ∧
    (∀ m ∈ [cxMarketA, cxMarketB], volumeSpreadKey m ≤ volumeSpreadKey cxMarketB) ∧
    ¬ (5 / 100 < edgeOf cxMarketB cxNews 0) := by
  have h := mock_trader_selects_max_volume_spread_key [cxMarketA, cxMarketB] cxNews 0
    ⟨cxMarketB, 3 / 100, false, none, none⟩ cx_eval
  refine ⟨h.1, h.2.1, ?_⟩
  rw [cx_edgeB]
  norm_num

end AgentsPolyM
